import Mathlib

/-!
Verification development for the x2node database access layer
(`@x2node/db` transaction orchestrator and `@x2node/db-connection-mysql`
connection, providers and dialect detection).

The TypeScript sources are shallowly embedded: each asynchronous method
becomes a pure function from the method's inputs (including the driver's
outcome for the underlying SQL command, supplied as a parameter) and the
connection's mutable fields (a `ConnState`) to the method's settled
outcome together with the updated state.  A complete call is modelled
atomically: the synchronous prologue (the precondition checks and the
status assignment) followed by the driver callback.
-/

namespace X2Node

/-- Transaction mode (enum `TxMode` in `db/src/connection.ts`). -/
inductive TxMode where
  | readWrite
  | readOnly
deriving DecidableEq, Repr

/-- Transaction resolution (enum `TxResolve` in `db/src/connection.ts`). -/
inductive TxResolve where
  | commit
  | rollback
deriving DecidableEq, Repr

/-- A driver error (`mysql2.ConnectionError`): an identity and the
driver-reported `fatal` flag. -/
structure DbError where
  id : Nat
  fatal : Bool
deriving DecidableEq, Repr

/-- The mutable fields of `MySQLDatabaseConnection`
(`db-connection-mysql/src/internal/connection.ts`): `_released`,
`_txStatus` and `_fatalError`. -/
structure ConnState where
  released : Bool
  txStatus : Nat
  fatalError : Option DbError
deriving DecidableEq, Repr

/-- A freshly constructed connection wrapper: `_released = false`,
`_txStatus = 0`, `_fatalError = null`. -/
def ConnState.init : ConnState := ⟨false, 0, none⟩

/-- Settled outcome of a connection method: a synchronously thrown
programming error (with its message), a rejected promise carrying a
driver error, or a resolved promise. -/
inductive Outcome (α : Type) where
  | thrown (msg : String)
  | rejected (e : DbError)
  | resolved (v : α)
deriving DecidableEq, Repr

/-- Whether the outcome is a synchronously thrown programming error. -/
def Outcome.isThrown {α : Type} : Outcome α → Bool
  | .thrown _ => true
  | _ => false

/-- `MySQLDatabaseConnection.release` (connection.ts lines 60-72):
throws if already released or if a transaction is active, otherwise
marks the connection released. -/
def ConnState.release (s : ConnState) : Outcome Unit × ConnState :=
  if s.released then
    (.thrown "The connection has been released.", s)
  else if s.txStatus > 0 then
    (.thrown "Cannot release connection because in active transaction.", s)
  else
    (.resolved (), { s with released := true })

/-- `MySQLDatabaseConnection.beginTransaction` (connection.ts lines
75-108).  `driver` is the outcome the driver reports for the
`START TRANSACTION` statement (`none` on success). -/
def beginTransaction (_mode : TxMode) (driver : Option DbError) (s : ConnState) :
    Outcome Unit × ConnState :=
  if s.released then
    (.thrown "The connection has been released.", s)
  else if s.txStatus > 0 then
    (.thrown "Cannot start new transaction because already in active transaction.", s)
  else
    match s.fatalError with
    | some fe => (.rejected fe, s)
    | none =>
      match driver with
      | some err =>
        (.rejected err,
          { s with txStatus := 0,
                   fatalError := if err.fatal then some err else s.fatalError })
      | none => (.resolved (), { s with txStatus := 4 })

/-- `MySQLDatabaseConnection.endTransaction` (connection.ts lines
111-167).  `driver` is the outcome the driver reports for the `COMMIT`
or `ROLLBACK` statement. -/
def endTransaction (res : TxResolve) (driver : Option DbError) (s : ConnState) :
    Outcome Unit × ConnState :=
  if s.released then
    (.thrown "The connection has been released.", s)
  else
    match s.fatalError with
    | some fe => (.rejected fe, s)
    | none =>
      match res with
      | .commit =>
        if s.txStatus < 4 then
          (.thrown "Cannot commit transaction because no active transaction.", s)
        else
          match driver with
          | some err =>
            if err.fatal then
              (.rejected { err with fatal := true },
                { s with txStatus := 0, fatalError := some { err with fatal := true } })
            else
              (.rejected err, { s with txStatus := 3 })
          | none => (.resolved (), { s with txStatus := 0 })
      | .rollback =>
        if s.txStatus < 3 then
          (.thrown "Cannot rollback transaction because no active transaction.", s)
        else
          match driver with
          | some err =>
            (.rejected err, { s with txStatus := 0, fatalError := some err })
          | none => (.resolved (), { s with txStatus := 0 })

/-- The raw result the driver reports for a successful statement
(`affectedRows` and `insertId`). -/
structure RawStmtResult where
  affectedRows : Nat
  insertId : Nat
deriving DecidableEq, Repr

/-- The `StatementResult` returned by `executeStatement`
(`insertId || undefined` maps a zero `insertId` to `undefined`). -/
structure StatementResult where
  numAffectedRows : Nat
  generatedId : Option Nat
deriving DecidableEq, Repr

/-- `MySQLDatabaseConnection.executeStatement` (connection.ts lines
170-199). -/
def executeStatement (driver : Option DbError) (raw : RawStmtResult) (s : ConnState) :
    Outcome StatementResult × ConnState :=
  if s.released then
    (.thrown "The connection has been released.", s)
  else
    match s.fatalError with
    | some fe => (.rejected fe, s)
    | none =>
      if s.txStatus > 0 && s.txStatus < 4 then
        (.thrown "Cannot execute statement because transaction is in a transitional state.", s)
      else
        match driver with
        | some err =>
          if err.fatal then
            (.rejected err, { s with txStatus := 0, fatalError := some err })
          else
            (.rejected err, s)
        | none =>
          (.resolved
            ⟨raw.affectedRows, if raw.insertId = 0 then none else some raw.insertId⟩, s)

/-- A query result parser (`QueryResultParser`): an initial internal
state, `addRow` which may throw, and `getResult` which may throw. -/
structure QueryParser (ρ σ R : Type) where
  init : σ
  addRow : σ → ρ → Except DbError σ
  getResult : σ → Except DbError R

/-- An event emitted by the driver's streaming query: a `"result"` row
or an `"error"` event (the `"end"` event closes the stream and is
implicit at the end of the list). -/
inductive QueryEvent (ρ : Type) where
  | row (r : ρ)
  | streamError (e : DbError)
deriving DecidableEq, Repr

/-- The body of `executeQuery`'s `"result"`/`"error"` handlers
(connection.ts lines 222-235): threads the parser state and the
first-error register through the event stream and records every row on
which `parser.addRow` was invoked. -/
def processEvents {ρ σ R : Type} (p : QueryParser ρ σ R) :
    σ → Option DbError → List (QueryEvent ρ) → σ × Option DbError × List ρ
  | st, error, [] => (st, error, [])
  | st, error, .row r :: rest =>
    match error with
    | some _ => processEvents p st error rest
    | none =>
      match p.addRow st r with
      | .ok st' =>
        let (st'', err'', tr) := processEvents p st' none rest
        (st'', err'', r :: tr)
      | .error e =>
        let (st'', err'', tr) := processEvents p st (some e) rest
        (st'', err'', r :: tr)
  | st, error, .streamError e :: rest =>
    match error with
    | some _ => processEvents p st error rest
    | none => processEvents p st (some e) rest

/-- `MySQLDatabaseConnection.executeQuery` (connection.ts lines
202-259).  `createErr` models the driver's `query` call itself throwing
(or returning no query object); `events` is the driver's event stream.
Returns the settled outcome, the list of rows passed to the parser, and
the updated state. -/
def executeQuery {ρ σ R : Type} (p : QueryParser ρ σ R) (createErr : Option DbError)
    (events : List (QueryEvent ρ)) (s : ConnState) :
    Outcome R × List ρ × ConnState :=
  if s.released then
    (.thrown "The connection has been released.", [], s)
  else
    match s.fatalError with
    | some fe => (.rejected fe, [], s)
    | none =>
      if s.txStatus > 0 && s.txStatus < 4 then
        (.thrown "Cannot execute query because transaction is in a transitional state.", [], s)
      else
        match createErr with
        | some err =>
          (.rejected { err with fatal := true },
            [], { s with txStatus := 0, fatalError := some { err with fatal := true } })
        | none =>
          let (st, error, rows) := processEvents p p.init none events
          match error with
          | none =>
            match p.getResult st with
            | .ok r => (.resolved r, rows, s)
            | .error e =>
              if e.fatal then
                (.rejected e, rows, { s with txStatus := 0, fatalError := some e })
              else
                (.rejected e, rows, s)
          | some e =>
            if e.fatal then
              (.rejected e, rows, { s with txStatus := 0, fatalError := some e })
            else
              (.rejected e, rows, s)

/-! ## Transaction orchestrator (`db/src/internal/transaction.ts`)

`Transaction.execute` is embedded as a pure function of an environment
that supplies the outcome of each collaborator call (connection
acquisition, the monitor, the master step and its statements, the
version save) and of each driver-level statement, threading the
connection state through `beginTransaction`/`endTransaction`/
`executeStatement` and recording a trace of the calls the orchestrator
makes. -/

/-- Outcome of `monitor.monitorTransaction`: resolves, rejects, or
throws synchronously (the latter is handled by the `catch` block at
transaction.ts lines 104-113). -/
inductive MonOutcome where
  | okMon
  | rejectMon (e : DbError)
  | throwMon (e : DbError)
deriving DecidableEq, Repr

/-- A call made by the orchestrator, recorded in the execution trace. -/
inductive ExecEvent where
  | beginCalled (mode : TxMode)
  | monitorCalled
  | stepCalled
  | saveCalled
  | commitCalled
  | rollbackCalled
  | loggedRollbackError (e : DbError)
  | releaseCalled
deriving DecidableEq, Repr

/-- An error propagated out of `Transaction.execute`: a driver/step
error or a synchronously thrown programming error. -/
inductive ExecErr where
  | db (e : DbError)
  | prog (msg : String)
deriving DecidableEq, Repr

/-- Environment of one `Transaction.execute` run: the outcome of every
collaborator call it may make. -/
structure OrchEnv (R : Type) where
  getConnectionOk : Except DbError Unit
  writeSegments : Option (List Nat)
  beginDriver : Option DbError
  monitorResult : MonOutcome
  stepStatements : List (Option DbError)
  stepResult : Except DbError R
  saveResult : Except DbError Unit
  commitDriver : Option DbError
  rollbackDriver : Option DbError

/-- `writeSegments && writeSegments.length > 0` (transaction.ts line 70). -/
def hasWriteSegments : Option (List Nat) → Bool
  | some ws => decide (0 < ws.length)
  | none => false

/-- The master step's statement executions: the step runs a sequence of
`executeStatement` calls on the connection (each with its driver
outcome), threading the connection state. -/
def runStatements : List (Option DbError) → ConnState → ConnState
  | [], s => s
  | d :: rest, s => runStatements rest (executeStatement d ⟨0, 0⟩ s).2

/-- The rollback `catch` handler (transaction.ts lines 94-102 and
104-113): attempts `endTransaction(Rollback)`; on rollback rejection
logs the rollback error and re-rejects with the original error; a
synchronous throw from `endTransaction` would replace the original
error (it escapes the async callback). -/
def rollbackCatch {R : Type} (rollbackDriver : Option DbError) (orig : ExecErr)
    (s : ConnState) : Except ExecErr R × List ExecEvent × ConnState :=
  match endTransaction .rollback rollbackDriver s with
  | (.resolved _, s') => (.error orig, [.rollbackCalled], s')
  | (.rejected rbErr, s') =>
    (.error orig, [.rollbackCalled, .loggedRollbackError rbErr], s')
  | (.thrown msg, s') => (.error (.prog msg), [.rollbackCalled], s')

/-- The commit continuation (transaction.ts lines 91-93) followed by the
rollback `catch` (lines 94-102): a commit rejection or synchronous
throw flows into the `catch`. -/
def commitPhase {R : Type} (env : OrchEnv R) (result : R) (s : ConnState)
    (tr : List ExecEvent) : Except ExecErr R × List ExecEvent × ConnState :=
  match endTransaction .commit env.commitDriver s with
  | (.resolved _, s') => (.ok result, tr ++ [.commitCalled], s')
  | (.rejected e, s') =>
    let (r, tr2, s'') := rollbackCatch env.rollbackDriver (.db e) s'
    (r, tr ++ [.commitCalled] ++ tr2, s'')
  | (.thrown msg, s') =>
    let (r, tr2, s'') := rollbackCatch env.rollbackDriver (.prog msg) s'
    (r, tr ++ [.commitCalled] ++ tr2, s'')

/-- The body of the `beginTransaction(...).then(...)` continuation
(transaction.ts lines 75-113): monitor allocation, step execution,
optional version save, commit, with the rollback `catch` on failure. -/
def innerBody {R : Type} (env : OrchEnv R) (readWrite : Bool) (s : ConnState) :
    Except ExecErr R × List ExecEvent × ConnState :=
  match env.monitorResult with
  | .throwMon e =>
    let (r, tr, s') := rollbackCatch (R := R) env.rollbackDriver (.db e) s
    (r, .monitorCalled :: tr, s')
  | .rejectMon e =>
    let (r, tr, s') := rollbackCatch (R := R) env.rollbackDriver (.db e) s
    (r, .monitorCalled :: tr, s')
  | .okMon =>
    let s1 := runStatements env.stepStatements s
    match env.stepResult with
    | .error e =>
      let (r, tr, s') := rollbackCatch (R := R) env.rollbackDriver (.db e) s1
      (r, .monitorCalled :: .stepCalled :: tr, s')
    | .ok result =>
      if readWrite then
        match env.saveResult with
        | .error e =>
          let (r, tr, s') := rollbackCatch (R := R) env.rollbackDriver (.db e) s1
          (r, .monitorCalled :: .stepCalled :: .saveCalled :: tr, s')
        | .ok _ =>
          commitPhase env result s1 [.monitorCalled, .stepCalled, .saveCalled]
      else
        commitPhase env result s1 [.monitorCalled, .stepCalled]

/-- The `.finally` handler (transaction.ts lines 114-117): releases the
connection; a throw from `release()` replaces the settled result. -/
def applyFinally {R : Type} (res : Except ExecErr R) (tr : List ExecEvent)
    (s : ConnState) : Except ExecErr R × List ExecEvent × ConnState :=
  match ConnState.release s with
  | (.resolved _, s') => (res, tr ++ [.releaseCalled], s')
  | (.thrown msg, s') => (.error (.prog msg), tr ++ [.releaseCalled], s')
  | (.rejected e, s') => (.error (.db e), tr ++ [.releaseCalled], s')

/-- `Transaction.execute` (transaction.ts lines 55-124), as a function
of the run's environment and the acquired connection's initial state.
Returns the settled result, the trace of orchestrator calls, and the
final connection state. -/
def Transaction.execute {R : Type} (env : OrchEnv R) (s0 : ConnState) :
    Except ExecErr R × List ExecEvent × ConnState :=
  match env.getConnectionOk with
  | .error e => (.error (.db e), [], s0)
  | .ok _ =>
    let readWrite := hasWriteSegments env.writeSegments
    let mode := if readWrite then TxMode.readWrite else TxMode.readOnly
    match beginTransaction mode env.beginDriver s0 with
    | (.thrown msg, s1) =>
      -- outer catch (lines 118-122): release the connection, rethrow
      match ConnState.release s1 with
      | (.resolved _, s2) => (.error (.prog msg), [.beginCalled mode, .releaseCalled], s2)
      | (.thrown rmsg, s2) => (.error (.prog rmsg), [.beginCalled mode, .releaseCalled], s2)
      | (.rejected e, s2) => (.error (.db e), [.beginCalled mode, .releaseCalled], s2)
    | (.rejected e, s1) => applyFinally (.error (.db e)) [.beginCalled mode] s1
    | (.resolved _, s1) =>
      let (res, innerTr, s2) := innerBody env readWrite s1
      applyFinally res (.beginCalled mode :: innerTr) s2

/-! ## Single connection provider
(`db-connection-mysql/src/internal/single-provider.ts`)

The provider's mutable fields plus the blocker and the microtask queue.
Callers waiting while the connection is allocated register, in arrival
order, on one shared `Blocker` (`_connectionBlocker`); the releaser only
clears `_connectionAllocated` and calls `blocker.unblock()`, which
resolves the blocker promise — the waiters' `getConnection` re-runs are
promise reactions, enqueued in registration order on the microtask
queue and executed only when the event loop drains it.  A
`getConnection` call made after `release()` but before those re-runs
execute therefore sees the connection free and takes it ahead of the
queued waiters. -/

/-- Mutable state of `MySQLSingleConnectionProvider`: the shutdown and
fatal flags, the allocated flag, the callers currently registered on
the blocker (in registration order), the pending microtask queue of
scheduled `getConnection` re-runs (in schedule order), and the log of
callers that have been handed the connection (in hand-out order). -/
structure ProvState where
  shutDown : Bool
  provFatal : Option DbError
  connectionAllocated : Bool
  blockerWaiters : List Nat
  microtasks : List Nat
  served : List Nat
deriving DecidableEq, Repr

/-- Provider state at construction. -/
def ProvState.init : ProvState := ⟨false, none, false, [], [], []⟩

/-- `getConnection` (single-provider.ts lines 119-157) invoked by caller
`k`: rejected if shut down or fatal; registered on the current blocker
if the connection is allocated; otherwise handed the connection. -/
def getConnectionStep (k : Nat) (st : ProvState) : ProvState :=
  if st.shutDown then st
  else if st.provFatal.isSome then st
  else if st.connectionAllocated then
    { st with blockerWaiters := st.blockerWaiters ++ [k] }
  else
    { st with connectionAllocated := true, served := st.served ++ [k] }

/-- The releaser closure (single-provider.ts lines 144-155): records a
fatal error if the released connection was fatal, clears the allocated
flag, and unblocks the blocker — resolving it schedules every
registered waiter's `getConnection` re-run on the microtask queue, in
registration order, and clears the blocker; nothing is served here. -/
def releaseStep (err : Option DbError) (st : ProvState) : ProvState :=
  let st1 :=
    match err with
    | some e => if e.fatal then { st with provFatal := some e } else st
    | none => st
  let st2 := { st1 with connectionAllocated := false }
  { st2 with blockerWaiters := [], microtasks := st2.microtasks ++ st2.blockerWaiters }

/-- The event loop runs the oldest pending microtask: the scheduled
waiter re-invokes `getConnection` (single-provider.ts lines 136-137,
via `Blocker.waitThen`). -/
def runTaskStep (st : ProvState) : ProvState :=
  match st.microtasks with
  | [] => st
  | k :: rest => getConnectionStep k { st with microtasks := rest }

/-- An event at the provider: a `getConnection` call by caller `k` from
some synchronous task, the release of the currently held connection
(with the error, if any, the released connection carried), or the event
loop running one pending microtask. -/
inductive ProvEvent where
  | arrive (k : Nat)
  | release (err : Option DbError)
  | runTask
deriving DecidableEq, Repr

/-- Run a sequence of provider events. -/
def runProv : List ProvEvent → ProvState → ProvState
  | [], st => st
  | .arrive k :: rest, st => runProv rest (getConnectionStep k st)
  | .release err :: rest, st => runProv rest (releaseStep err st)
  | .runTask :: rest, st => runProv rest (runTaskStep st)

/-- The callers of a provider event sequence, in arrival order. -/
def arrivalsOf (evs : List ProvEvent) : List Nat :=
  evs.filterMap fun ev =>
    match ev with
    | .arrive k => some k
    | .release _ => none
    | .runTask => none

/-- Number of release events. -/
def releaseCountOf (evs : List ProvEvent) : Nat :=
  evs.countP fun ev =>
    match ev with
    | .arrive _ => false
    | .release _ => true
    | .runTask => false

/-- A schedule in which every synchronous `getConnection` call and
every release happens only once the microtask queue has drained — no
caller slips in between a release and the execution of the re-runs it
scheduled. -/
def drainedSchedule : List ProvEvent → ProvState → Bool
  | [], _ => true
  | .arrive k :: rest, st =>
    st.microtasks.isEmpty && drainedSchedule rest (getConnectionStep k st)
  | .release err :: rest, st =>
    st.microtasks.isEmpty && drainedSchedule rest (releaseStep err st)
  | .runTask :: rest, st => drainedSchedule rest (runTaskStep st)

/-! ## Dialect detection and provider construction
(`db-connection-mysql/src/provider.ts`) -/

/-- The two supported SQL dialects (`MariaDB10SQLDialect`,
`MySQL56SQLDialect`). -/
inductive Dialect where
  | mariaDB10
  | mySQL56
deriving DecidableEq, Repr

/-- Consume one or more digits at the head of the character list,
returning the remainder (`\d+`). -/
def matchDigitsPlus (l : List Char) : Option (List Char) :=
  match l with
  | c :: _ => if c.isDigit then some (l.dropWhile Char.isDigit) else none
  | [] => none

/-- Match `-10\.\d+\.\d+-MariaDB` exactly covering `l` (so, anchored at
the end of the string when tried on every suffix). -/
def mariaTail (l : List Char) : Bool :=
  match l with
  | '-' :: '1' :: '0' :: '.' :: rest =>
    match matchDigitsPlus rest with
    | some ('.' :: rest2) =>
      match matchDigitsPlus rest2 with
      | some rest3 => decide (rest3 = ['-', 'M', 'a', 'r', 'i', 'a', 'D', 'B'])
      | none => false
    | _ => false
  | _ => false

/-- The regex test on `-10\.\d+\.\d+-MariaDB` anchored with `$`
(provider.ts line 40): unanchored at the start, anchored at the end. -/
def mariaDbVersionTest (s : String) : Bool :=
  s.data.tails.any mariaTail

/-- The test `/^5\.[6-7]\.\d+$/.test(serverVersion)` (provider.ts
line 42): fully anchored. -/
def mysql56VersionTest (s : String) : Bool :=
  match s.data with
  | '5' :: '.' :: c :: '.' :: rest =>
    (c = '6' || c = '7') && !rest.isEmpty && rest.all Char.isDigit
  | _ => false

/-- An error produced during provider construction. -/
inductive ProvErr where
  | db (e : DbError)
  | noHandshake
  | unsupported (version : String)
deriving DecidableEq, Repr

/-- `detectDialect` (provider.ts lines 33-47): fails if there is no
handshake packet, classifies the server version string otherwise. -/
def detectDialect (handshake : Option String) : Except ProvErr Dialect :=
  match handshake with
  | none => .error .noHandshake
  | some serverVersion =>
    if mariaDbVersionTest serverVersion then .ok .mariaDB10
    else if mysql56VersionTest serverVersion then .ok .mySQL56
    else .error (.unsupported serverVersion)

/-- An observable action during provider construction, in the order it
happens; the construction promise settles on the first settle event. -/
inductive CtorEvent where
  | settleResolve (d : Dialect)
  | settleReject (e : ProvErr)
  | conReleasedToPool
  | poolEndStarted
  | poolEndCompleted
  | destroyed
  | endStarted
  | endCompleted
deriving DecidableEq, Repr

/-- The pool branch of `createMySQLDatabaseConnectionProvider`
(provider.ts lines 71-108): on any error the pool is ended and the
promise is rejected from the `end` callback. -/
def createProviderPool (getConErr : Option DbError) (handshake : Option String)
    (_endErr : Option DbError) : List CtorEvent :=
  match getConErr with
  | some e => [.poolEndStarted, .poolEndCompleted, .settleReject (.db e)]
  | none =>
    match detectDialect handshake with
    | .ok d => [.conReleasedToPool, .settleResolve d]
    | .error pe => [.poolEndStarted, .poolEndCompleted, .settleReject pe]

/-- The single-connection branch of
`createMySQLDatabaseConnectionProvider` (provider.ts lines 110-152): on
any error the promise is rejected first (line 137), then the connection
is destroyed (if the raw connection already recorded a fatal error) or
`end` is initiated, each followed by a redundant second reject. -/
def createProviderSingle (connectErr : Option DbError) (handshake : Option String)
    (rawFatalAfter : Bool) (_endErr : Option DbError) : List CtorEvent :=
  let rejectPath := fun (pe : ProvErr) =>
    if rawFatalAfter then
      [CtorEvent.settleReject pe, .destroyed, .settleReject pe]
    else
      [CtorEvent.settleReject pe, .endStarted, .endCompleted, .settleReject pe]
  match connectErr with
  | some e => rejectPath (.db e)
  | none =>
    match detectDialect handshake with
    | .ok d => [.settleResolve d]
    | .error pe => rejectPath pe

/-- Whether a construction event settles the promise. -/
def CtorEvent.isSettle : CtorEvent → Bool
  | .settleResolve _ => true
  | .settleReject _ => true
  | _ => false

/-- The settled result of a construction run: the first settle event. -/
def firstSettle (tr : List CtorEvent) : Option CtorEvent :=
  tr.find? CtorEvent.isSettle

/-! ## Sequences of transaction-control calls on one connection -/

/-- One complete `beginTransaction`/`endTransaction` call together with
the driver outcome of its underlying SQL statement. -/
inductive ConnCall where
  | beginTx (mode : TxMode) (driver : Option DbError)
  | endTx (res : TxResolve) (driver : Option DbError)
deriving DecidableEq, Repr

/-- Apply one call to the connection. -/
def applyCall (c : ConnCall) (s : ConnState) : Outcome Unit × ConnState :=
  match c with
  | .beginTx mode driver => beginTransaction mode driver s
  | .endTx res driver => endTransaction res driver s

/-- Run a sequence of complete calls on the connection. -/
def runCalls : List ConnCall → ConnState → ConnState
  | [], s => s
  | c :: rest, s => runCalls rest (applyCall c s).2

/-- Modelled from the spec, section 4.1: the named states a connection
can rest in between complete calls (the pending states 1 and 2 exist
only while a statement is on the wire). -/
inductive SpecTxState where
  | idle
  | rollbackPending
  | active
deriving DecidableEq, Repr

/-- The integer coding the spec assigns to each between-call state:
`Idle(0)`, `RollbackPending(3)`, `Active(4)`. -/
def SpecTxState.statusCode : SpecTxState → Nat
  | .idle => 0
  | .rollbackPending => 3
  | .active => 4

/-- Modelled from the spec, section 4.1: the deterministic state machine
on complete calls.  `none` marks an illegal call.  `beginTransaction`
is legal only from `Idle`; a successful begin reaches `Active`, a failed
one falls back to `Idle`.  `endTransaction(Commit)` is legal only from
`Active`; success reaches `Idle`, failure `RollbackPending`.
`endTransaction(Rollback)` is legal from `Active` or `RollbackPending`
(status at least 3) and always reaches `Idle`. -/
def specStep : SpecTxState → ConnCall → Option SpecTxState
  | .idle, .beginTx _ none => some .active
  | .idle, .beginTx _ (some _) => some .idle
  | .active, .endTx .commit none => some .idle
  | .active, .endTx .commit (some _) => some .rollbackPending
  | .active, .endTx .rollback _ => some .idle
  | .rollbackPending, .endTx .rollback _ => some .idle
  | _, _ => none

/-- Run the spec's state machine over a sequence of calls; `none` if
some call in the sequence is illegal. -/
def specRun : List ConnCall → SpecTxState → Option SpecTxState
  | [], st => some st
  | c :: rest, st =>
    match specStep st c with
    | some st' => specRun rest st'
    | none => none

/-- The connection states reachable through the connection's public
methods from a freshly constructed wrapper. -/
inductive Reachable : ConnState → Prop where
  | init : Reachable ConnState.init
  | beginTx {s : ConnState} (mode : TxMode) (driver : Option DbError) :
      Reachable s → Reachable (beginTransaction mode driver s).2
  | endTx {s : ConnState} (res : TxResolve) (driver : Option DbError) :
      Reachable s → Reachable (endTransaction res driver s).2
  | stmt {s : ConnState} (driver : Option DbError) (raw : RawStmtResult) :
      Reachable s → Reachable (executeStatement driver raw s).2
  | query {s : ConnState} (p : QueryParser Nat Nat Nat) (createErr : Option DbError)
      (events : List (QueryEvent Nat)) :
      Reachable s → Reachable (executeQuery p createErr events s).2.2
  | rel {s : ConnState} : Reachable s → Reachable (ConnState.release s).2

/-- The error, if any, that a single stream event produces when handled
with no prior error and parser state `st`: a row on which `addRow`
throws, or an `"error"` event. -/
def eventOutcome {ρ σ R : Type} (p : QueryParser ρ σ R) (st : σ) :
    QueryEvent ρ → Option DbError
  | .row r =>
    match p.addRow st r with
    | .ok _ => none
    | .error e => some e
  | .streamError e => some e

/-- The rows a single stream event passes to the parser when handled
with no prior error. -/
def eventRows {ρ : Type} : QueryEvent ρ → List ρ
  | .row r => [r]
  | .streamError _ => []

/-- A concrete demonstration parser: sums rows, failing on row 99. -/
def pDemo : QueryParser Nat Nat Nat :=
  ⟨0,
    fun st r => if r = 99 then .error ⟨3, false⟩ else .ok (st + r),
    fun st => .ok st⟩

/-- The connection states a master step's statement executions can
leave behind, starting from an active transaction: still active with no
fatal error, or idle with a recorded fatal error. -/
def StepReach (s : ConnState) : Prop :=
  s = ⟨false, 4, none⟩ ∨ ∃ e, s = ⟨false, 0, some e⟩

/-- The connection states from which the orchestrator's rollback
`catch` handler can run: an open transaction (status 4), a failed
non-fatal commit (status 3), or an idle state with a recorded fatal
error. -/
def RbEntry (s : ConnState) : Prop :=
  s = ⟨false, 4, none⟩ ∨ s = ⟨false, 3, none⟩ ∨ ∃ e, s = ⟨false, 0, some e⟩

/-- The original failure of a `Transaction.execute` run whose
connection was acquired, whose transaction began, and whose monitor
resolved: the step chain's error, else (read/write only) the
version-save error, else the error the commit rejected with. -/
def origFailure {R : Type} (env : OrchEnv R) : Option DbError :=
  match env.stepResult with
  | .error e => some e
  | .ok _ =>
    match (if hasWriteSegments env.writeSegments then env.saveResult else .ok ()) with
    | .error e => some e
    | .ok _ =>
      match (endTransaction .commit env.commitDriver
          (runStatements env.stepStatements ⟨false, 4, none⟩)).1 with
      | .rejected e => some e
      | _ => none

/-! ## Lemmas about the connection state machine -/

lemma applyCall_fatal_unchanged (c : ConnCall) (s : ConnState) (e : DbError)
    (h : s.fatalError = some e) : (applyCall c s).2 = s := by
  cases c with
  | beginTx mode driver =>
    simp only [applyCall, beginTransaction, h]
    split
    · rfl
    · split
      · rfl
      · rfl
  | endTx res driver =>
    simp only [applyCall, endTransaction, h]
    split
    · rfl
    · rfl

lemma runCalls_fatal_unchanged (cs : List ConnCall) (s : ConnState) (e : DbError)
    (h : s.fatalError = some e) : runCalls cs s = s := by
  induction cs with
  | nil => rfl
  | cons c rest ih =>
    rw [runCalls, applyCall_fatal_unchanged c s e h, ih]

lemma runCalls_fatal_none_head (c : ConnCall) (rest : List ConnCall) (s : ConnState)
    (h : (runCalls (c :: rest) s).fatalError = none) :
    (applyCall c s).2.fatalError = none := by
  cases hh : (applyCall c s).2.fatalError with
  | none => rfl
  | some e =>
    rw [runCalls, runCalls_fatal_unchanged rest _ e hh, hh] at h
    exact absurd h (by simp)

lemma runCalls_matches_spec (cs : List ConnCall) (st st' : SpecTxState)
    (hspec : specRun cs st = some st')
    (hfat : (runCalls cs ⟨false, st.statusCode, none⟩).fatalError = none) :
    runCalls cs ⟨false, st.statusCode, none⟩ = ⟨false, st'.statusCode, none⟩ := by
  induction cs generalizing st with
  | nil =>
    simp only [specRun, Option.some.injEq] at hspec
    subst hspec
    rfl
  | cons c rest ih =>
    cases hstep : specStep st c with
    | none => rw [specRun, hstep] at hspec; exact absurd hspec (by simp)
    | some st1 =>
      rw [specRun, hstep] at hspec
      have hmid : (applyCall c ⟨false, st.statusCode, none⟩).2.fatalError = none :=
        runCalls_fatal_none_head c rest _ (by rw [runCalls] at hfat ⊢; exact hfat)
      have hstate : (applyCall c ⟨false, st.statusCode, none⟩).2 =
          ⟨false, st1.statusCode, none⟩ := by
        cases st <;> rcases c with ⟨mode, driver⟩ | ⟨res, driver⟩ <;> try cases res
        all_goals cases driver
        all_goals simp only [specStep, Option.some.injEq] at hstep
        all_goals
          first
          | (exact absurd hstep (by simp))
          | (subst hstep
             simp_all [applyCall, beginTransaction, endTransaction,
               SpecTxState.statusCode]
             done)
          | (subst hstep
             rename_i err
             rcases herr : err.fatal <;>
               simp_all [applyCall, beginTransaction, endTransaction,
                 SpecTxState.statusCode])
      rw [runCalls, hstate] at hfat ⊢
      exact ih st1 hspec hfat

/-! ## Claim theorems: the connection -/

/-- C1: for every sequence of complete `beginTransaction`/`endTransaction`
calls that is legal per the spec's section 4.1 state machine and during
which no fatal error is recorded (on an unreleased connection), the
connection's transaction status equals the spec machine's deterministic
result; and every illegal call (begin when not `Idle`, commit when
status is below `Active(4)`, rollback when status is below 3) throws a
programming error synchronously and leaves the transaction status and
the fatal-error flag unchanged. -/
theorem c1_tx_state_machine :
    (∀ (cs : List ConnCall) (st : SpecTxState),
      specRun cs .idle = some st →
      (runCalls cs ConnState.init).fatalError = none →
      runCalls cs ConnState.init = ⟨false, st.statusCode, none⟩) ∧
    (∀ (s : ConnState), s.released = false → s.fatalError = none →
      ((0 < s.txStatus → ∀ mode driver,
          beginTransaction mode driver s =
            (.thrown "Cannot start new transaction because already in active transaction.",
              s)) ∧
       (s.txStatus < 4 → ∀ driver,
          endTransaction .commit driver s =
            (.thrown "Cannot commit transaction because no active transaction.", s)) ∧
       (s.txStatus < 3 → ∀ driver,
          endTransaction .rollback driver s =
            (.thrown "Cannot rollback transaction because no active transaction.", s)))) := by
  constructor
  · intro cs st hspec hfat
    exact runCalls_matches_spec cs .idle st hspec hfat
  · intro s hr hf
    refine ⟨?_, ?_, ?_⟩
    · intro hpos mode driver
      simp [beginTransaction, hr, hpos]
    · intro hlt driver
      simp [endTransaction, hr, hf, hlt]
    · intro hlt driver
      simp [endTransaction, hr, hf, hlt]

/-- Witness for C1: a legal begin / failed-commit / rollback sequence
ends `Idle`, and a commit without an active transaction throws. -/
theorem c1_tx_state_machine_witness :
    runCalls [.beginTx .readWrite none, .endTx .commit (some ⟨5, false⟩),
      .endTx .rollback none] ConnState.init = ⟨false, 0, none⟩ ∧
    endTransaction .commit none ⟨false, 0, none⟩ =
      (.thrown "Cannot commit transaction because no active transaction.",
        ⟨false, 0, none⟩) := by
  refine ⟨c1_tx_state_machine.1 _ .idle (by decide) (by decide), ?_⟩
  exact (c1_tx_state_machine.2 ⟨false, 0, none⟩ rfl rfl).2.1 (by norm_num) none

/-- C2 counterexample: a `COMMIT` failure with a non-fatal driver error
moves the connection to `RollbackPending(3)` but neither marks the
error fatal nor sets the sticky fatal-error flag, while a driver-fatal
`COMMIT` failure moves the connection to `Idle(0)`, not
`RollbackPending` — so the claimed combination (RollbackPending plus a
forced-fatal sticky error) never occurs. -/
theorem c2_commit_failure_counterexample :
    endTransaction .commit (some ⟨5, false⟩) ⟨false, 4, none⟩ =
      (.rejected ⟨5, false⟩, ⟨false, 3, none⟩) ∧
    endTransaction .commit (some ⟨5, true⟩) ⟨false, 4, none⟩ =
      (.rejected ⟨5, true⟩, ⟨false, 0, some ⟨5, true⟩⟩) := by
  constructor <;> rfl

/-- C2 amended: when `COMMIT` fails with an error the driver did not
report fatal, the connection transitions to `RollbackPending(3)` and
the sticky fatal-error flag stays unset (so a rollback can follow);
when the driver reports the `COMMIT` error fatal, the connection
transitions to `Idle(0)` and the sticky fatal-error flag is set to that
error. -/
theorem c2_commit_failure_amended (s : ConnState) (err : DbError)
    (hr : s.released = false) (hf : s.fatalError = none) (ht : s.txStatus = 4) :
    (err.fatal = false →
      endTransaction .commit (some err) s = (.rejected err, { s with txStatus := 3 })) ∧
    (err.fatal = true →
      endTransaction .commit (some err) s =
        (.rejected err, { s with txStatus := 0, fatalError := some err })) := by
  constructor <;> intro hfatal
  · simp [endTransaction, hr, hf, ht, hfatal]
  · obtain ⟨i, f⟩ := err
    subst hfatal
    simp [endTransaction, hr, hf, ht]

/-- Witness for C2's amended theorem at a concrete non-fatal commit
error. -/
theorem c2_commit_failure_amended_witness :
    endTransaction .commit (some ⟨9, false⟩) ⟨false, 4, none⟩ =
      (.rejected ⟨9, false⟩, ⟨false, 3, none⟩) :=
  (c2_commit_failure_amended ⟨false, 4, none⟩ ⟨9, false⟩ rfl rfl rfl).1 rfl

/-- The connection state after `executeQuery` is either unchanged or
has status 0 together with a newly recorded fatal error. -/
lemma executeQuery_state {ρ σ R : Type} (p : QueryParser ρ σ R)
    (createErr : Option DbError) (events : List (QueryEvent ρ)) (s : ConnState) :
    (executeQuery p createErr events s).2.2 = s ∨
    ∃ e, (executeQuery p createErr events s).2.2 =
      { s with txStatus := 0, fatalError := some e } := by
  simp only [executeQuery]
  split
  · exact Or.inl rfl
  · split
    · exact Or.inl rfl
    · split
      · exact Or.inl rfl
      · cases createErr with
        | some err => exact Or.inr ⟨_, rfl⟩
        | none =>
          rcases hpe : processEvents p p.init none events with ⟨st, error, rows⟩
          simp only [hpe]
          cases error with
          | none =>
            cases hres : p.getResult st with
            | ok r => simp [hres]
            | error e =>
              cases hef : e.fatal with
              | false => simp [hres, hef]
              | true => exact Or.inr ⟨e, by simp [hres, hef]⟩
          | some e =>
            cases hef : e.fatal with
            | false => simp [hef]
            | true => exact Or.inr ⟨e, by simp [hef]⟩

/-- `executeStatement` never throws when the connection is unreleased
and the status is not mid-transition. -/
lemma executeStatement_not_thrown (driver : Option DbError) (raw : RawStmtResult)
    (s : ConnState) (hr : s.released = false)
    (hb : (decide (s.txStatus > 0) && decide (s.txStatus < 4)) = false) :
    (executeStatement driver raw s).1.isThrown = false := by
  simp only [executeStatement, hr, hb, Bool.false_eq_true, if_false]
  split
  · rfl
  · cases driver with
    | none => rfl
    | some err =>
      rcases hef : err.fatal <;> simp [hef, Outcome.isThrown]

/-- `executeQuery` never throws when the connection is unreleased and
the status is not mid-transition. -/
lemma executeQuery_not_thrown {ρ σ R : Type} (p : QueryParser ρ σ R)
    (createErr : Option DbError) (events : List (QueryEvent ρ)) (s : ConnState)
    (hr : s.released = false)
    (hb : (decide (s.txStatus > 0) && decide (s.txStatus < 4)) = false) :
    (executeQuery p createErr events s).1.isThrown = false := by
  simp only [executeQuery, hr, hb, Bool.false_eq_true, if_false]
  split
  · rfl
  · cases createErr with
    | some err => rfl
    | none =>
      rcases hpe : processEvents p p.init none events with ⟨st, error, rows⟩
      simp only [hpe]
      cases error with
      | none =>
        cases hres : p.getResult st with
        | ok r => simp [hres, Outcome.isThrown]
        | error e =>
          rcases hef : e.fatal <;> simp [hres, hef, Outcome.isThrown]
      | some e =>
        rcases hef : e.fatal <;> simp [hef, Outcome.isThrown]

/-- On every reachable connection state, a recorded fatal error implies
the transaction status is `Idle(0)`: each place the code records a
fatal error also forces the status back to 0, and once set the fatal
error is never cleared. -/
lemma reachable_fatal_idle {s : ConnState} (h : Reachable s) :
    s.fatalError.isSome → s.txStatus = 0 := by
  induction h with
  | init => simp [ConnState.init]
  | beginTx mode driver hs ih =>
    simp only [beginTransaction]
    repeat' split
    all_goals first
      | exact ih
      | (intro _; rfl)
      | (simp_all; done)
  | endTx res driver hs ih =>
    simp only [endTransaction]
    repeat' split
    all_goals first
      | exact ih
      | (intro _; rfl)
      | (simp_all; done)
  | stmt driver raw hs ih =>
    simp only [executeStatement]
    repeat' split
    all_goals first
      | exact ih
      | (intro _; rfl)
      | (simp_all; done)
  | query p createErr events hs ih =>
    rcases executeQuery_state p createErr events _ with heq | ⟨e, heq⟩ <;> rw [heq]
    · exact ih
    · simp
  | rel hs ih =>
    simp only [ConnState.release]
    repeat' split
    all_goals first
      | exact ih
      | (intro _; rfl)
      | (simp_all; done)

/-- C6: on every reachable, unreleased connection state carrying a
recorded fatal error, `beginTransaction`, `executeStatement` and
`executeQuery` all reject with exactly the stored fatal error, start no
transaction, pass no row to the parser, and leave the connection state
unchanged. -/
theorem c6_fatal_error_sticky_reject (s : ConnState) (e : DbError)
    (hreach : Reachable s) (hr : s.released = false) (hf : s.fatalError = some e) :
    (∀ mode driver, beginTransaction mode driver s = (.rejected e, s)) ∧
    (∀ driver raw, executeStatement driver raw s = (.rejected e, s)) ∧
    (∀ (ρ σ R : Type) (p : QueryParser ρ σ R) (createErr : Option DbError)
        (events : List (QueryEvent ρ)),
      executeQuery p createErr events s = (.rejected e, [], s)) := by
  have ht : s.txStatus = 0 := reachable_fatal_idle hreach (by simp [hf])
  refine ⟨?_, ?_, ?_⟩
  · intro mode driver
    simp [beginTransaction, hr, hf, ht]
  · intro driver raw
    simp [executeStatement, hr, hf]
  · intro ρ σ R p createErr events
    simp [executeQuery, hr, hf]

/-- Witness for C6 at a state reached by a fatally failed
`beginTransaction` on a fresh connection. -/
theorem c6_fatal_error_sticky_reject_witness :
    beginTransaction .readOnly none ⟨false, 0, some ⟨7, true⟩⟩ =
      (.rejected ⟨7, true⟩, ⟨false, 0, some ⟨7, true⟩⟩) := by
  have hreach : Reachable ⟨false, 0, some ⟨7, true⟩⟩ := by
    have h := Reachable.beginTx (s := ConnState.init) .readWrite (some ⟨7, true⟩)
      Reachable.init
    have heq : (beginTransaction .readWrite (some ⟨7, true⟩) ConnState.init).2 =
        ⟨false, 0, some ⟨7, true⟩⟩ := by rfl
    exact heq ▸ h
  exact (c6_fatal_error_sticky_reject _ ⟨7, true⟩ hreach rfl rfl).1 .readOnly none

/-- C9: on an unreleased connection with no recorded fatal error,
`executeStatement` and `executeQuery` throw a programming error
synchronously exactly when the transaction status is mid-transition
(1, 2 or 3); and in that case the state is unchanged, no row reaches
the parser and the outcome is independent of the driver (no SQL is
sent). -/
theorem c9_transitional_lockout (s : ConnState)
    (hr : s.released = false) (hf : s.fatalError = none) :
    (∀ driver raw,
      ((executeStatement driver raw s).1.isThrown = true ↔
        0 < s.txStatus ∧ s.txStatus < 4)) ∧
    (∀ (ρ σ R : Type) (p : QueryParser ρ σ R) (createErr : Option DbError)
        (events : List (QueryEvent ρ)),
      ((executeQuery p createErr events s).1.isThrown = true ↔
        0 < s.txStatus ∧ s.txStatus < 4)) ∧
    (0 < s.txStatus → s.txStatus < 4 →
      (∀ driver raw, executeStatement driver raw s =
        (.thrown "Cannot execute statement because transaction is in a transitional state.",
          s)) ∧
      (∀ (ρ σ R : Type) (p : QueryParser ρ σ R) (createErr : Option DbError)
          (events : List (QueryEvent ρ)),
        executeQuery p createErr events s =
          (.thrown "Cannot execute query because transaction is in a transitional state.",
            [], s))) := by
  refine ⟨?_, ?_, ?_⟩
  · intro driver raw
    by_cases htr : 0 < s.txStatus ∧ s.txStatus < 4
    · simp [executeStatement, hr, hf, htr.1, htr.2, Outcome.isThrown, htr]
    · have hb : (decide (s.txStatus > 0) && decide (s.txStatus < 4)) = false := by
        rcases Decidable.not_and_iff_or_not.mp htr with h | h <;> simp [h]
      simp [executeStatement_not_thrown driver raw s hr hb, htr]
  · intro ρ σ R p createErr events
    by_cases htr : 0 < s.txStatus ∧ s.txStatus < 4
    · simp [executeQuery, hr, hf, htr.1, htr.2, Outcome.isThrown, htr]
    · have hb : (decide (s.txStatus > 0) && decide (s.txStatus < 4)) = false := by
        rcases Decidable.not_and_iff_or_not.mp htr with h | h <;> simp [h]
      simp [executeQuery_not_thrown p createErr events s hr hb, htr]
  · intro h1 h4
    constructor
    · intro driver raw
      simp [executeStatement, hr, hf, h1, h4]
    · intro ρ σ R p createErr events
      simp [executeQuery, hr, hf, h1, h4]

/-- Witness for C9 at transitional status 2 (`CommitPending`). -/
theorem c9_transitional_lockout_witness :
    executeStatement none ⟨1, 0⟩ ⟨false, 2, none⟩ =
      (.thrown "Cannot execute statement because transaction is in a transitional state.",
        ⟨false, 2, none⟩) :=
  ((c9_transitional_lockout ⟨false, 2, none⟩ rfl rfl).2.2 (by norm_num)
    (by norm_num)).1 none ⟨1, 0⟩

/-- Once the first-error register is set, the remaining events change
nothing: the parser state is untouched, the error is kept, and no
further row is passed to the parser. -/
lemma processEvents_absorb {ρ σ R : Type} (p : QueryParser ρ σ R) (st : σ)
    (e : DbError) (evs : List (QueryEvent ρ)) :
    processEvents p st (some e) evs = (st, some e, []) := by
  induction evs with
  | nil => rfl
  | cons ev rest ih =>
    cases ev with
    | row r => simp [processEvents, ih]
    | streamError e2 => simp [processEvents, ih]

/-- Processing a clean prefix, then an event that produces the first
error, then anything: the result keeps the prefix's parser state, holds
that first error, and the rows passed to the parser are exactly the
prefix's rows plus the erroring row (if the event was a row). -/
lemma processEvents_first_error {ρ σ R : Type} (p : QueryParser ρ σ R) (st0 st : σ)
    (pre post : List (QueryEvent ρ)) (ev : QueryEvent ρ) (tr : List ρ) (e : DbError)
    (hpre : processEvents p st0 none pre = (st, none, tr))
    (hev : eventOutcome p st ev = some e) :
    processEvents p st0 none (pre ++ ev :: post) = (st, some e, tr ++ eventRows ev) := by
  induction pre generalizing st0 tr with
  | nil =>
    simp only [processEvents, Prod.mk.injEq, true_and] at hpre
    obtain ⟨h1, h3⟩ := hpre
    subst h1
    subst h3
    cases ev with
    | row r =>
      cases har : p.addRow st0 r with
      | ok st1 => rw [eventOutcome, har] at hev; cases hev
      | error e1 =>
        rw [eventOutcome, har] at hev
        injection hev with he1
        subst he1
        simp [processEvents, har, processEvents_absorb, eventRows]
    | streamError e1 =>
      rw [eventOutcome] at hev
      injection hev with he1
      subst he1
      simp [processEvents, processEvents_absorb, eventRows]
  | cons ev0 rest ih =>
    cases ev0 with
    | row r =>
      cases har : p.addRow st0 r with
      | ok st1 =>
        rcases hrest : processEvents p st1 none rest with ⟨st2, err2, tr2⟩
        simp only [processEvents, har, hrest, Prod.mk.injEq] at hpre
        obtain ⟨h1, h2, h3⟩ := hpre
        subst h1
        subst h2
        subst h3
        simp only [List.cons_append, processEvents, har, List.append_eq, ih st1 tr2 hrest]
      | error e1 =>
        simp [processEvents, har, processEvents_absorb, Prod.mk.injEq] at hpre
    | streamError e1 =>
      simp [processEvents, processEvents_absorb, Prod.mk.injEq] at hpre

/-- C10: on a usable connection, once a first error occurs during
`executeQuery` — the parser's `addRow` throwing, a stream `"error"`
event, or `getResult` throwing at the end — no further row is passed to
the parser, the promise rejects with exactly that first error, and any
later errors are discarded rather than replacing it. -/
theorem c10_first_error_wins {ρ σ R : Type} (p : QueryParser ρ σ R) (s : ConnState)
    (hr : s.released = false) (hf : s.fatalError = none)
    (htr : ¬(0 < s.txStatus ∧ s.txStatus < 4)) :
    (∀ (pre post : List (QueryEvent ρ)) (ev : QueryEvent ρ) (st : σ) (tr : List ρ)
        (e : DbError),
      processEvents p p.init none pre = (st, none, tr) →
      eventOutcome p st ev = some e →
      (executeQuery p none (pre ++ ev :: post) s).1 = .rejected e ∧
      (executeQuery p none (pre ++ ev :: post) s).2.1 = tr ++ eventRows ev) ∧
    (∀ (evs : List (QueryEvent ρ)) (st : σ) (tr : List ρ) (e : DbError),
      processEvents p p.init none evs = (st, none, tr) →
      p.getResult st = .error e →
      (executeQuery p none evs s).1 = .rejected e ∧
      (executeQuery p none evs s).2.1 = tr) := by
  have hb : (decide (s.txStatus > 0) && decide (s.txStatus < 4)) = false := by
    rcases Decidable.not_and_iff_or_not.mp htr with h | h <;> simp [h]
  constructor
  · intro pre post ev st tr e hpre hev
    have hall := processEvents_first_error p p.init st pre post ev tr e hpre hev
    simp only [executeQuery, hr, hf, hb, Bool.false_eq_true, if_false, hall]
    cases hef : e.fatal <;> simp [hef]
  · intro evs st tr e hall hres
    simp only [executeQuery, hr, hf, hb, Bool.false_eq_true, if_false, hall, hres]
    cases hef : e.fatal <;> simp [hef]

/-- Witness for C10: the demonstration parser fails on the second row;
the third row is not passed to it and the query rejects with the
parser's error. -/
theorem c10_first_error_wins_witness :
    (executeQuery pDemo none ([.row 1] ++ .row 99 :: [.row 5]) ⟨false, 0, none⟩).1 =
      .rejected ⟨3, false⟩ ∧
    (executeQuery pDemo none ([.row 1] ++ .row 99 :: [.row 5]) ⟨false, 0, none⟩).2.1 =
      [1, 99] := by
  have h := (c10_first_error_wins pDemo ⟨false, 0, none⟩ rfl rfl (by simp)).1
    [.row 1] [.row 5] (.row 99) 1 [1] ⟨3, false⟩ rfl rfl
  simpa [eventRows] using h

/-! ## Lemmas about the transaction orchestrator -/

lemma runStatements_stepReach (l : List (Option DbError)) (s : ConnState)
    (h : StepReach s) : StepReach (runStatements l s) := by
  induction l generalizing s with
  | nil => exact h
  | cons d rest ih =>
    rw [runStatements]
    apply ih
    rcases h with h | ⟨e, h⟩ <;> subst h
    · cases d with
      | none => exact Or.inl rfl
      | some err =>
        cases hef : err.fatal with
        | false => exact Or.inl (by simp [executeStatement, hef])
        | true => exact Or.inr ⟨err, by simp [executeStatement, hef]⟩
    · exact Or.inr ⟨e, by simp [executeStatement]⟩

lemma rollbackCatch_spec {R : Type} (d : Option DbError) (orig : ExecErr)
    (s : ConnState) (h : RbEntry s) :
    ∃ tr2 s', rollbackCatch (R := R) d orig s = (.error orig, tr2, s') ∧
      s'.released = false ∧ s'.txStatus = 0 ∧
      (tr2 = [.rollbackCalled] ∨
        ∃ rb, tr2 = [.rollbackCalled, .loggedRollbackError rb]) := by
  rcases h with h | h | ⟨e, h⟩ <;> subst h
  · cases d with
    | none => exact ⟨_, _, rfl, rfl, rfl, Or.inl rfl⟩
    | some err => exact ⟨_, _, rfl, rfl, rfl, Or.inr ⟨err, rfl⟩⟩
  · cases d with
    | none => exact ⟨_, _, rfl, rfl, rfl, Or.inl rfl⟩
    | some err => exact ⟨_, _, rfl, rfl, rfl, Or.inr ⟨err, rfl⟩⟩
  · exact ⟨_, _, rfl, rfl, rfl, Or.inr ⟨e, rfl⟩⟩

lemma commitPhase_spec {R : Type} (env : OrchEnv R) (result : R) (s : ConnState)
    (tr : List ExecEvent) (h : StepReach s) :
    ∃ tr2 s',
      commitPhase env result s tr =
        ((match (endTransaction .commit env.commitDriver s).1 with
          | .resolved _ => Except.ok result
          | .rejected e => Except.error (ExecErr.db e)
          | .thrown msg => Except.error (ExecErr.prog msg)),
          tr ++ [.commitCalled] ++ tr2, s') ∧
      s'.released = false ∧ s'.txStatus = 0 ∧
      ((∃ u, (endTransaction .commit env.commitDriver s).1 = .resolved u ∧ tr2 = []) ∨
       (∃ e2, (endTransaction .commit env.commitDriver s).1 = .rejected e2 ∧
         (tr2 = [.rollbackCalled] ∨
           ∃ rb, tr2 = [.rollbackCalled, .loggedRollbackError rb]))) := by
  rcases h with h | ⟨e, h⟩ <;> subst h
  · cases hcd : env.commitDriver with
    | none =>
      have hend : endTransaction .commit none ⟨false, 4, none⟩ =
          (.resolved (), ⟨false, 0, none⟩) := by
        simp [endTransaction]
      refine ⟨[], ⟨false, 0, none⟩, ?_, rfl, rfl, Or.inl ⟨(), by rw [hend], rfl⟩⟩
      simp only [commitPhase, hcd, hend, List.append_nil]
    | some err =>
      cases hef : err.fatal with
      | false =>
        have hend : endTransaction .commit (some err) ⟨false, 4, none⟩ =
            (.rejected err, ⟨false, 3, none⟩) := by
          simp [endTransaction, hef]
        obtain ⟨tr2, s', heq, h1, h2, h3⟩ := rollbackCatch_spec (R := R)
          env.rollbackDriver (.db err) ⟨false, 3, none⟩ (Or.inr (Or.inl rfl))
        refine ⟨tr2, s', ?_, h1, h2, Or.inr ⟨err, by rw [hend], h3⟩⟩
        simp only [commitPhase, hcd, hend, heq, List.append_assoc]
      | true =>
        have hend : endTransaction .commit (some err) ⟨false, 4, none⟩ =
            (.rejected { err with fatal := true },
              ⟨false, 0, some { err with fatal := true }⟩) := by
          simp [endTransaction, hef]
        obtain ⟨tr2, s', heq, h1, h2, h3⟩ := rollbackCatch_spec (R := R)
          env.rollbackDriver (.db { err with fatal := true })
          ⟨false, 0, some { err with fatal := true }⟩ (Or.inr (Or.inr ⟨_, rfl⟩))
        refine ⟨tr2, s', ?_, h1, h2,
          Or.inr ⟨{ err with fatal := true }, by rw [hend], h3⟩⟩
        simp only [commitPhase, hcd, hend, heq, List.append_assoc]
  · have hend : endTransaction .commit env.commitDriver ⟨false, 0, some e⟩ =
        (.rejected e, ⟨false, 0, some e⟩) := by
      simp [endTransaction]
    obtain ⟨tr2, s', heq, h1, h2, h3⟩ := rollbackCatch_spec (R := R)
      env.rollbackDriver (.db e) ⟨false, 0, some e⟩ (Or.inr (Or.inr ⟨e, rfl⟩))
    refine ⟨tr2, s', ?_, h1, h2, Or.inr ⟨e, by rw [hend], h3⟩⟩
    simp only [commitPhase, hend, heq, List.append_assoc]

lemma innerBody_spec {R : Type} (env : OrchEnv R) (rwFlag : Bool) :
    ∃ res tr s', innerBody env rwFlag ⟨false, 4, none⟩ = (res, tr, s') ∧
      s'.released = false ∧ s'.txStatus = 0 ∧
      ExecEvent.releaseCalled ∉ tr ∧
      (rwFlag = false → ExecEvent.saveCalled ∉ tr) := by
  have hsr : StepReach (runStatements env.stepStatements ⟨false, 4, none⟩) :=
    runStatements_stepReach _ _ (Or.inl rfl)
  have hrbentry : RbEntry (runStatements env.stepStatements ⟨false, 4, none⟩) := by
    rcases hsr with h | ⟨e, h⟩
    · exact Or.inl h
    · exact Or.inr (Or.inr ⟨e, h⟩)
  cases hmon : env.monitorResult with
  | throwMon e =>
    obtain ⟨tr2, s', heq, h1, h2, h3⟩ := rollbackCatch_spec (R := R)
      env.rollbackDriver (.db e) ⟨false, 4, none⟩ (Or.inl rfl)
    refine ⟨.error (.db e), .monitorCalled :: tr2, s', ?_, h1, h2, ?_, fun _ => ?_⟩
    · simp only [innerBody, hmon, heq]
    · rcases h3 with h3 | ⟨rb, h3⟩ <;> subst h3 <;> simp
    · rcases h3 with h3 | ⟨rb, h3⟩ <;> subst h3 <;> simp
  | rejectMon e =>
    obtain ⟨tr2, s', heq, h1, h2, h3⟩ := rollbackCatch_spec (R := R)
      env.rollbackDriver (.db e) ⟨false, 4, none⟩ (Or.inl rfl)
    refine ⟨.error (.db e), .monitorCalled :: tr2, s', ?_, h1, h2, ?_, fun _ => ?_⟩
    · simp only [innerBody, hmon, heq]
    · rcases h3 with h3 | ⟨rb, h3⟩ <;> subst h3 <;> simp
    · rcases h3 with h3 | ⟨rb, h3⟩ <;> subst h3 <;> simp
  | okMon =>
    cases hstep : env.stepResult with
    | error e =>
      obtain ⟨tr2, s', heq, h1, h2, h3⟩ := rollbackCatch_spec (R := R)
        env.rollbackDriver (.db e) _ hrbentry
      refine ⟨.error (.db e), .monitorCalled :: .stepCalled :: tr2, s', ?_, h1, h2,
        ?_, fun _ => ?_⟩
      · simp only [innerBody, hmon, hstep, heq]
      · rcases h3 with h3 | ⟨rb, h3⟩ <;> subst h3 <;> simp
      · rcases h3 with h3 | ⟨rb, h3⟩ <;> subst h3 <;> simp
    | ok r =>
      cases rwFlag with
      | false =>
        obtain ⟨tr2, s', hceq, h1, h2, h3⟩ := commitPhase_spec env r _
          [.monitorCalled, .stepCalled] hsr
        refine ⟨(match (endTransaction .commit env.commitDriver
              (runStatements env.stepStatements ⟨false, 4, none⟩)).1 with
            | .resolved _ => Except.ok r
            | .rejected e => Except.error (ExecErr.db e)
            | .thrown msg => Except.error (ExecErr.prog msg)),
          [.monitorCalled, .stepCalled] ++ [.commitCalled] ++ tr2,
          s', ?_, h1, h2, ?_, fun _ => ?_⟩
        · simp only [innerBody, hmon, hstep, Bool.false_eq_true, if_false, hceq]
        · rcases h3 with ⟨u, _, h3⟩ | ⟨e2, _, h3 | ⟨rb, h3⟩⟩ <;> subst h3 <;> simp
        · rcases h3 with ⟨u, _, h3⟩ | ⟨e2, _, h3 | ⟨rb, h3⟩⟩ <;> subst h3 <;> simp
      | true =>
        cases hsave : env.saveResult with
        | error e =>
          obtain ⟨tr2, s', heq, h1, h2, h3⟩ := rollbackCatch_spec (R := R)
            env.rollbackDriver (.db e) _ hrbentry
          refine ⟨.error (.db e),
            .monitorCalled :: .stepCalled :: .saveCalled :: tr2, s', ?_, h1, h2,
            ?_, fun hcon => by cases hcon⟩
          · simp only [innerBody, hmon, hstep, hsave, if_true, heq]
          · rcases h3 with h3 | ⟨rb, h3⟩ <;> subst h3 <;> simp
        | ok u =>
          obtain ⟨tr2, s', hceq, h1, h2, h3⟩ := commitPhase_spec env r _
            [.monitorCalled, .stepCalled, .saveCalled] hsr
          refine ⟨(match (endTransaction .commit env.commitDriver
              (runStatements env.stepStatements ⟨false, 4, none⟩)).1 with
            | .resolved _ => Except.ok r
            | .rejected e => Except.error (ExecErr.db e)
            | .thrown msg => Except.error (ExecErr.prog msg)),
            [.monitorCalled, .stepCalled, .saveCalled] ++ [.commitCalled] ++ tr2,
            s', ?_, h1, h2, ?_, fun hcon => by cases hcon⟩
          · simp only [innerBody, hmon, hstep, hsave, if_true, hceq]
          · rcases h3 with ⟨u2, _, h3⟩ | ⟨e2, _, h3 | ⟨rb, h3⟩⟩ <;> subst h3 <;> simp

lemma innerBody_orig_failure {R : Type} (env : OrchEnv R) (e : DbError)
    (hmon : env.monitorResult = .okMon) (horig : origFailure env = some e) :
    ∃ tr s', innerBody env (hasWriteSegments env.writeSegments) ⟨false, 4, none⟩ =
      (.error (.db e), tr, s') ∧ ExecEvent.rollbackCalled ∈ tr ∧
      s'.released = false ∧ s'.txStatus = 0 := by
  have hsr : StepReach (runStatements env.stepStatements ⟨false, 4, none⟩) :=
    runStatements_stepReach _ _ (Or.inl rfl)
  have hrbentry : RbEntry (runStatements env.stepStatements ⟨false, 4, none⟩) := by
    rcases hsr with h | ⟨e0, h⟩
    · exact Or.inl h
    · exact Or.inr (Or.inr ⟨e0, h⟩)
  cases hstep : env.stepResult with
  | error e0 =>
    have he : e0 = e := by
      simp only [origFailure, hstep, Option.some.injEq] at horig
      exact horig
    subst he
    obtain ⟨tr2, s', heq, h1, h2, h3⟩ := rollbackCatch_spec (R := R)
      env.rollbackDriver (.db e0) _ hrbentry
    refine ⟨.monitorCalled :: .stepCalled :: tr2, s', ?_, ?_, h1, h2⟩
    · cases hws : hasWriteSegments env.writeSegments <;>
        simp only [innerBody, hmon, hstep, heq, Bool.false_eq_true, if_false, if_true]
    · rcases h3 with h3 | ⟨rb, h3⟩ <;> subst h3 <;> simp
  | ok r =>
    cases hws : hasWriteSegments env.writeSegments with
    | true =>
      cases hsave : env.saveResult with
      | error e0 =>
        have he : e0 = e := by
          simp only [origFailure, hstep, hws, if_true, hsave, Option.some.injEq] at horig
          exact horig
        subst he
        obtain ⟨tr2, s', heq, h1, h2, h3⟩ := rollbackCatch_spec (R := R)
          env.rollbackDriver (.db e0) _ hrbentry
        refine ⟨.monitorCalled :: .stepCalled :: .saveCalled :: tr2, s', ?_, ?_, h1, h2⟩
        · simp only [innerBody, hmon, hstep, hsave, if_true, heq]
        · rcases h3 with h3 | ⟨rb, h3⟩ <;> subst h3 <;> simp
      | ok u =>
        obtain ⟨tr2, s', hceq, h1, h2, h3⟩ := commitPhase_spec env r _
          [.monitorCalled, .stepCalled, .saveCalled] hsr
        have hcom : (endTransaction .commit env.commitDriver
            (runStatements env.stepStatements ⟨false, 4, none⟩)).1 = .rejected e := by
          simp only [origFailure, hstep, hws, if_true, hsave] at horig
          rcases hc : (endTransaction .commit env.commitDriver
              (runStatements env.stepStatements ⟨false, 4, none⟩)).1 with msg | e2 | u2 <;>
            rw [hc] at horig
          · cases horig
          · injection horig with he2; rw [he2]
          · cases horig
        rcases h3 with ⟨u2, hout, _⟩ | ⟨e2, hout, h3⟩
        · rw [hcom] at hout; cases hout
        · rw [hcom] at hout
          injection hout with he2
          subst he2
          refine ⟨[.monitorCalled, .stepCalled, .saveCalled] ++ [.commitCalled] ++ tr2,
            s', ?_, ?_, h1, h2⟩
          · rw [show innerBody env true ⟨false, 4, none⟩ =
                commitPhase env r (runStatements env.stepStatements ⟨false, 4, none⟩)
                  [.monitorCalled, .stepCalled, .saveCalled] by
                simp only [innerBody, hmon, hstep, hsave, if_true]]
            rw [hceq, hcom]
          · rcases h3 with h3 | ⟨rb, h3⟩ <;> subst h3 <;> simp
    | false =>
      obtain ⟨tr2, s', hceq, h1, h2, h3⟩ := commitPhase_spec env r _
        [.monitorCalled, .stepCalled] hsr
      have hcom : (endTransaction .commit env.commitDriver
          (runStatements env.stepStatements ⟨false, 4, none⟩)).1 = .rejected e := by
        simp only [origFailure, hstep, hws, Bool.false_eq_true, if_false] at horig
        rcases hc : (endTransaction .commit env.commitDriver
            (runStatements env.stepStatements ⟨false, 4, none⟩)).1 with msg | e2 | u2 <;>
          rw [hc] at horig
        · cases horig
        · injection horig with he2; rw [he2]
        · cases horig
      rcases h3 with ⟨u2, hout, _⟩ | ⟨e2, hout, h3⟩
      · rw [hcom] at hout; cases hout
      · rw [hcom] at hout
        injection hout with he2
        subst he2
        refine ⟨[.monitorCalled, .stepCalled] ++ [.commitCalled] ++ tr2, s', ?_, ?_, h1, h2⟩
        · rw [show innerBody env false ⟨false, 4, none⟩ =
              commitPhase env r (runStatements env.stepStatements ⟨false, 4, none⟩)
                [.monitorCalled, .stepCalled] by
              simp only [innerBody, hmon, hstep, Bool.false_eq_true, if_false]]
          rw [hceq, hcom]
        · rcases h3 with h3 | ⟨rb, h3⟩ <;> subst h3 <;> simp

lemma innerBody_save_commit {R : Type} (env : OrchEnv R) (r : R)
    (hmon : env.monitorResult = .okMon) (hstep : env.stepResult = .ok r) :
    ∃ res tr s', innerBody env true ⟨false, 4, none⟩ = (res, tr, s') ∧
      (tr.filter (fun ev => ev == ExecEvent.saveCalled || ev == ExecEvent.commitCalled) =
          [ExecEvent.saveCalled, ExecEvent.commitCalled] ∨
        tr.filter (fun ev => ev == ExecEvent.saveCalled || ev == ExecEvent.commitCalled) =
          [ExecEvent.saveCalled]) := by
  have hsr : StepReach (runStatements env.stepStatements ⟨false, 4, none⟩) :=
    runStatements_stepReach _ _ (Or.inl rfl)
  have hrbentry : RbEntry (runStatements env.stepStatements ⟨false, 4, none⟩) := by
    rcases hsr with h | ⟨e0, h⟩
    · exact Or.inl h
    · exact Or.inr (Or.inr ⟨e0, h⟩)
  cases hsave : env.saveResult with
  | error e =>
    obtain ⟨tr2, s', heq, h1, h2, h3⟩ := rollbackCatch_spec (R := R)
      env.rollbackDriver (.db e) _ hrbentry
    refine ⟨.error (.db e), .monitorCalled :: .stepCalled :: .saveCalled :: tr2, s',
      ?_, ?_⟩
    · simp only [innerBody, hmon, hstep, hsave, if_true, heq]
    · right
      rcases h3 with h3 | ⟨rb, h3⟩ <;> subst h3 <;> simp
  | ok u =>
    obtain ⟨tr2, s', hceq, h1, h2, h3⟩ := commitPhase_spec env r _
      [.monitorCalled, .stepCalled, .saveCalled] hsr
    refine ⟨(match (endTransaction .commit env.commitDriver
              (runStatements env.stepStatements ⟨false, 4, none⟩)).1 with
            | .resolved _ => Except.ok r
            | .rejected e => Except.error (ExecErr.db e)
            | .thrown msg => Except.error (ExecErr.prog msg)),
      [.monitorCalled, .stepCalled, .saveCalled] ++ [.commitCalled] ++ tr2,
      s', ?_, ?_⟩
    · simp only [innerBody, hmon, hstep, hsave, if_true, hceq]
    · left
      rcases h3 with ⟨u2, _, h3⟩ | ⟨e2, _, h3 | ⟨rb, h3⟩⟩ <;> subst h3 <;> simp

/-! ## Claim theorems: the transaction orchestrator -/

/-- C3: in every `Transaction.execute` run whose connection acquisition
succeeds, the connection's `release()` is called exactly once, on every
exit path (begin failure, monitor failure or throw, step failure, save
failure, commit failure, rollback failure, or success), and after the
run settles the connection is released with no transaction left open
(transaction status 0). -/
theorem c3_connection_always_released {R : Type} (env : OrchEnv R)
    (hacq : env.getConnectionOk = .ok ()) :
    (Transaction.execute env ConnState.init).2.1.count ExecEvent.releaseCalled = 1 ∧
    (Transaction.execute env ConnState.init).2.2.released = true ∧
    (Transaction.execute env ConnState.init).2.2.txStatus = 0 := by
  obtain ⟨res, tr, s', hib, h1, h2, h4, _⟩ :=
    innerBody_spec env (hasWriteSegments env.writeSegments)
  have hrel : ConnState.release s' = (.resolved (), { s' with released := true }) := by
    simp [ConnState.release, h1, h2]
  rcases hbd : env.beginDriver with _ | err
  · have hbegin : beginTransaction
        (if hasWriteSegments env.writeSegments then TxMode.readWrite else TxMode.readOnly)
        none ConnState.init = (.resolved (), ⟨false, 4, none⟩) := rfl
    have hexec : Transaction.execute env ConnState.init =
        (res,
          .beginCalled (if hasWriteSegments env.writeSegments then TxMode.readWrite
            else TxMode.readOnly) :: tr ++ [.releaseCalled],
          { s' with released := true }) := by
      simp only [Transaction.execute, hacq, hbd, hbegin, hib, applyFinally, hrel]
    rw [hexec]
    refine ⟨?_, rfl, h2⟩
    simp [List.count_cons, List.count_append, List.count_eq_zero.mpr h4]
  · have hbegin : beginTransaction
        (if hasWriteSegments env.writeSegments then TxMode.readWrite else TxMode.readOnly)
        (some err) ConnState.init =
        (.rejected err, ⟨false, 0, if err.fatal then some err else none⟩) := rfl
    have hrel2 : ConnState.release ⟨false, 0, if err.fatal then some err else none⟩ =
        (.resolved (), ⟨true, 0, if err.fatal then some err else none⟩) := by
      simp [ConnState.release]
    have hexec : Transaction.execute env ConnState.init =
        (.error (.db err),
          [.beginCalled (if hasWriteSegments env.writeSegments then TxMode.readWrite
            else TxMode.readOnly), .releaseCalled],
          ⟨true, 0, if err.fatal then some err else none⟩) := by
      simp only [Transaction.execute, hacq, hbd, hbegin, applyFinally, hrel2,
        List.singleton_append]
    rw [hexec]
    exact ⟨by simp, rfl, rfl⟩

/-- Witness for C3: a read/write run whose step fails and whose
rollback also fails still releases exactly once and leaves no open
transaction. -/
theorem c3_connection_always_released_witness :
    ((Transaction.execute (R := Nat)
        ⟨.ok (), some [1], none, .okMon, [], .error ⟨2, false⟩, .ok (), none,
          some ⟨9, true⟩⟩
        ConnState.init).2.1.count ExecEvent.releaseCalled = 1) ∧
    (Transaction.execute (R := Nat)
        ⟨.ok (), some [1], none, .okMon, [], .error ⟨2, false⟩, .ok (), none,
          some ⟨9, true⟩⟩
        ConnState.init).2.2.released = true ∧
    (Transaction.execute (R := Nat)
        ⟨.ok (), some [1], none, .okMon, [], .error ⟨2, false⟩, .ok (), none,
          some ⟨9, true⟩⟩
        ConnState.init).2.2.txStatus = 0 :=
  c3_connection_always_released _ rfl

/-- C4: in every run where the connection was acquired, the transaction
began and the monitor resolved, if the step chain, the version save or
the commit fails (the run's original failure), then
`endTransaction(Rollback)` is attempted and `execute` rejects with
exactly that original failure — in particular a rollback failure is
only logged and never replaces it. -/
theorem c4_rollback_preserves_original_error {R : Type} (env : OrchEnv R)
    (e : DbError) (hacq : env.getConnectionOk = .ok ())
    (hbegin : env.beginDriver = none) (hmon : env.monitorResult = .okMon)
    (horig : origFailure env = some e) :
    (Transaction.execute env ConnState.init).1 = .error (.db e) ∧
    ExecEvent.rollbackCalled ∈ (Transaction.execute env ConnState.init).2.1 := by
  obtain ⟨tr, s', hib, hmem, h1, h2⟩ := innerBody_orig_failure env e hmon horig
  have hrel : ConnState.release s' = (.resolved (), { s' with released := true }) := by
    simp [ConnState.release, h1, h2]
  have hbeg : beginTransaction
      (if hasWriteSegments env.writeSegments then TxMode.readWrite else TxMode.readOnly)
      none ConnState.init = (.resolved (), ⟨false, 4, none⟩) := rfl
  have hexec : Transaction.execute env ConnState.init =
      (.error (.db e),
        .beginCalled (if hasWriteSegments env.writeSegments then TxMode.readWrite
          else TxMode.readOnly) :: tr ++ [.releaseCalled],
        { s' with released := true }) := by
    simp only [Transaction.execute, hacq, hbegin, hbeg, hib, applyFinally, hrel]
  rw [hexec]
  refine ⟨rfl, ?_⟩
  simp [List.mem_append, hmem]

/-- Witness for C4: a step failure with a failing rollback still
rejects with the step's error, and the rollback was attempted. -/
theorem c4_rollback_preserves_original_error_witness :
    ((Transaction.execute (R := Nat)
        ⟨.ok (), some [1], none, .okMon, [], .error ⟨2, false⟩, .ok (), none,
          some ⟨9, false⟩⟩
        ConnState.init).1 = .error (.db ⟨2, false⟩)) ∧
    ExecEvent.rollbackCalled ∈
      (Transaction.execute (R := Nat)
        ⟨.ok (), some [1], none, .okMon, [], .error ⟨2, false⟩, .ok (), none,
          some ⟨9, false⟩⟩
        ConnState.init).2.1 :=
  c4_rollback_preserves_original_error _ ⟨2, false⟩ rfl rfl rfl rfl

/-- C5: a run whose master step declares no write segments begins a
read-only transaction and never calls `saveSegmentUpdates`; a run whose
master step declares at least one write segment begins a read/write
transaction, and when the step chain succeeds, `saveSegmentUpdates` is
called after it and before the commit (the save/commit calls in the
trace are exactly `[save, commit]`, or `[save]` when the save itself
fails and the commit is skipped). -/
theorem c5_write_segments_mode {R : Type} (env : OrchEnv R)
    (hacq : env.getConnectionOk = .ok ()) :
    (hasWriteSegments env.writeSegments = false →
      ExecEvent.beginCalled .readOnly ∈ (Transaction.execute env ConnState.init).2.1 ∧
      ExecEvent.saveCalled ∉ (Transaction.execute env ConnState.init).2.1) ∧
    (hasWriteSegments env.writeSegments = true →
      ExecEvent.beginCalled .readWrite ∈ (Transaction.execute env ConnState.init).2.1 ∧
      (env.beginDriver = none → env.monitorResult = .okMon →
        ∀ r : R, env.stepResult = .ok r →
        ((Transaction.execute env ConnState.init).2.1.filter
            (fun ev => ev == ExecEvent.saveCalled || ev == ExecEvent.commitCalled) =
          [ExecEvent.saveCalled, ExecEvent.commitCalled] ∨
        (Transaction.execute env ConnState.init).2.1.filter
            (fun ev => ev == ExecEvent.saveCalled || ev == ExecEvent.commitCalled) =
          [ExecEvent.saveCalled]))) := by
  constructor
  · intro hws
    obtain ⟨res, tr, s', hib, h1, h2, h4, h5⟩ := innerBody_spec env false
    have hnosave := h5 rfl
    have hrel : ConnState.release s' = (.resolved (), { s' with released := true }) := by
      simp [ConnState.release, h1, h2]
    rcases hbd : env.beginDriver with _ | err
    · have hbeg : beginTransaction TxMode.readOnly none ConnState.init =
          (.resolved (), ⟨false, 4, none⟩) := rfl
      have hexec : Transaction.execute env ConnState.init =
          (res, .beginCalled .readOnly :: tr ++ [.releaseCalled],
            { s' with released := true }) := by
        simp only [Transaction.execute, hacq, hbd, hws, Bool.false_eq_true, if_false,
          hbeg, hib, applyFinally, hrel]
      rw [hexec]
      constructor
      · simp
      · simp [hnosave]
    · have hbeg : beginTransaction TxMode.readOnly (some err) ConnState.init =
          (.rejected err, ⟨false, 0, if err.fatal then some err else none⟩) := rfl
      have hrel2 : ConnState.release ⟨false, 0, if err.fatal then some err else none⟩ =
          (.resolved (), ⟨true, 0, if err.fatal then some err else none⟩) := by
        simp [ConnState.release]
      have hexec : Transaction.execute env ConnState.init =
          (.error (.db err), [.beginCalled .readOnly, .releaseCalled],
            ⟨true, 0, if err.fatal then some err else none⟩) := by
        simp only [Transaction.execute, hacq, hbd, hws, Bool.false_eq_true, if_false,
          hbeg, applyFinally, hrel2, List.singleton_append]
      rw [hexec]
      exact ⟨by simp, by simp⟩
  · intro hws
    constructor
    · rcases hbd : env.beginDriver with _ | err
      · obtain ⟨res, tr, s', hib, h1, h2, h4, h5⟩ := innerBody_spec env true
        have hrel : ConnState.release s' = (.resolved (), { s' with released := true }) := by
          simp [ConnState.release, h1, h2]
        have hbeg : beginTransaction TxMode.readWrite none ConnState.init =
            (.resolved (), ⟨false, 4, none⟩) := rfl
        have hexec : Transaction.execute env ConnState.init =
            (res, .beginCalled .readWrite :: tr ++ [.releaseCalled],
              { s' with released := true }) := by
          simp only [Transaction.execute, hacq, hbd, hws, if_true, hbeg, hib,
            applyFinally, hrel]
        rw [hexec]
        simp
      · have hbeg : beginTransaction TxMode.readWrite (some err) ConnState.init =
            (.rejected err, ⟨false, 0, if err.fatal then some err else none⟩) := rfl
        have hrel2 : ConnState.release ⟨false, 0, if err.fatal then some err else none⟩ =
            (.resolved (), ⟨true, 0, if err.fatal then some err else none⟩) := by
          simp [ConnState.release]
        have hexec : Transaction.execute env ConnState.init =
            (.error (.db err), [.beginCalled .readWrite, .releaseCalled],
              ⟨true, 0, if err.fatal then some err else none⟩) := by
          simp only [Transaction.execute, hacq, hbd, hws, if_true, hbeg, applyFinally,
            hrel2, List.singleton_append]
        rw [hexec]
        simp
    · intro hbd hmon r hstep
      obtain ⟨res, tr, s', hib, hfil⟩ := innerBody_save_commit env r hmon hstep
      have hclosed : s'.released = false ∧ s'.txStatus = 0 := by
        obtain ⟨res2, tr2, s2, hib2, g1, g2, _, _⟩ := innerBody_spec env true
        rw [hib] at hib2
        obtain ⟨hr2, ht2, hs2⟩ : res = res2 ∧ tr = tr2 ∧ s' = s2 := by
          refine ⟨congrArg (fun x => x.1) hib2, congrArg (fun x => x.2.1) hib2,
            congrArg (fun x => x.2.2) hib2⟩
        subst hs2
        exact ⟨g1, g2⟩
      have hrel : ConnState.release s' = (.resolved (), { s' with released := true }) := by
        simp [ConnState.release, hclosed.1, hclosed.2]
      have hbeg : beginTransaction TxMode.readWrite none ConnState.init =
          (.resolved (), ⟨false, 4, none⟩) := rfl
      have hexec : Transaction.execute env ConnState.init =
          (res, .beginCalled .readWrite :: tr ++ [.releaseCalled],
            { s' with released := true }) := by
        simp only [Transaction.execute, hacq, hbd, hws, if_true, hbeg, hib,
          applyFinally, hrel]
      rw [hexec]
      rcases hfil with hfil | hfil
      · left
        simp [List.filter_append, hfil]
      · right
        simp [List.filter_append, hfil]

/-- Witness for C5 on both sides: a run with no write segments and a
run with one write segment whose step succeeds. -/
theorem c5_write_segments_mode_witness :
    (ExecEvent.beginCalled .readOnly ∈
        (Transaction.execute (R := Nat)
          ⟨.ok (), none, none, .okMon, [], .ok 7, .ok (), none, none⟩
          ConnState.init).2.1 ∧
      ExecEvent.saveCalled ∉
        (Transaction.execute (R := Nat)
          ⟨.ok (), none, none, .okMon, [], .ok 7, .ok (), none, none⟩
          ConnState.init).2.1) ∧
    ((Transaction.execute (R := Nat)
        ⟨.ok (), some [1], none, .okMon, [], .ok 7, .ok (), none, none⟩
        ConnState.init).2.1.filter
          (fun ev => ev == ExecEvent.saveCalled || ev == ExecEvent.commitCalled) =
      [ExecEvent.saveCalled, ExecEvent.commitCalled] ∨
    (Transaction.execute (R := Nat)
        ⟨.ok (), some [1], none, .okMon, [], .ok 7, .ok (), none, none⟩
        ConnState.init).2.1.filter
          (fun ev => ev == ExecEvent.saveCalled || ev == ExecEvent.commitCalled) =
      [ExecEvent.saveCalled]) := by
  constructor
  · exact (c5_write_segments_mode (R := Nat)
      ⟨.ok (), none, none, .okMon, [], .ok 7, .ok (), none, none⟩ rfl).1 rfl
  · exact ((c5_write_segments_mode (R := Nat)
      ⟨.ok (), some [1], none, .okMon, [], .ok 7, .ok (), none, none⟩ rfl).2
      (by decide)).2 rfl rfl 7 rfl

/-! ## Lemmas about the single connection provider -/

lemma runProv_spec (evs : List ProvEvent) (st : ProvState)
    (hs : st.shutDown = false) (hf : st.provFatal = none)
    (hq : st.connectionAllocated = false → st.blockerWaiters = [])
    (hd : drainedSchedule evs st = true)
    (hgood : ∀ err, ProvEvent.release (some err) ∈ evs → err.fatal = false) :
    ∃ n,
      (runProv evs st).served =
        st.served ++ ((st.blockerWaiters ++ st.microtasks) ++ arrivalsOf evs).take n ∧
      (runProv evs st).blockerWaiters ++ (runProv evs st).microtasks =
        ((st.blockerWaiters ++ st.microtasks) ++ arrivalsOf evs).drop n ∧
      n ≤ releaseCountOf evs + (if st.connectionAllocated then 0 else 1) := by
  induction evs generalizing st with
  | nil =>
    refine ⟨0, ?_, ?_, by simp⟩
    · simp [runProv]
    · simp [runProv, arrivalsOf]
  | cons ev rest ih =>
    have hgoodr : ∀ err, ProvEvent.release (some err) ∈ rest → err.fatal = false :=
      fun err hmem => hgood err (List.mem_cons_of_mem _ hmem)
    cases ev with
    | arrive k =>
      rw [runProv]
      rw [drainedSchedule, Bool.and_eq_true] at hd
      obtain ⟨hmt0, hdr⟩ := hd
      have hmt : st.microtasks = [] := by
        cases hmc : st.microtasks with
        | nil => rfl
        | cons a l => rw [hmc] at hmt0; cases hmt0
      cases hca : st.connectionAllocated with
      | true =>
        have hstep : getConnectionStep k st =
            { st with blockerWaiters := st.blockerWaiters ++ [k] } := by
          simp [getConnectionStep, hs, hf, hca]
        rw [hstep] at hdr ⊢
        obtain ⟨n, h1, h2, h3⟩ := ih { st with blockerWaiters := st.blockerWaiters ++ [k] }
          hs hf (by intro hcon; rw [hca] at hcon; cases hcon) hdr hgoodr
        refine ⟨n, ?_, ?_, ?_⟩
        · rw [h1]; simp [arrivalsOf, hmt]
        · rw [h2]; simp [arrivalsOf, hmt]
        · simp [releaseCountOf, List.countP_cons, hca] at h3 ⊢
          omega
      | false =>
        have hw : st.blockerWaiters = [] := hq hca
        have hstep : getConnectionStep k st =
            { st with connectionAllocated := true, served := st.served ++ [k] } := by
          simp [getConnectionStep, hs, hf, hca]
        rw [hstep] at hdr ⊢
        obtain ⟨n, h1, h2, h3⟩ := ih
          { st with connectionAllocated := true, served := st.served ++ [k] }
          hs hf (by intro hcon; cases hcon) hdr hgoodr
        refine ⟨n + 1, ?_, ?_, ?_⟩
        · rw [h1]; simp [arrivalsOf, hw, hmt]
        · rw [h2]; simp [arrivalsOf, hw, hmt]
        · simp [releaseCountOf, List.countP_cons, hca] at h3 ⊢
          omega
    | release err =>
      rw [runProv]
      rw [drainedSchedule, Bool.and_eq_true] at hd
      obtain ⟨hmt0, hdr⟩ := hd
      have hmt : st.microtasks = [] := by
        cases hmc : st.microtasks with
        | nil => rfl
        | cons a l => rw [hmc] at hmt0; cases hmt0
      have hnf : releaseStep err st =
          { st with connectionAllocated := false, blockerWaiters := [], microtasks := st.microtasks ++ st.blockerWaiters } := by
        cases err with
        | none => simp [releaseStep]
        | some e =>
          have he : e.fatal = false := hgood e (List.mem_cons_self _ _)
          simp [releaseStep, he]
      rw [hnf] at hdr ⊢
      obtain ⟨n, h1, h2, h3⟩ := ih
        { st with connectionAllocated := false, blockerWaiters := [], microtasks := st.microtasks ++ st.blockerWaiters }
        hs hf (fun _ => rfl) hdr hgoodr
      refine ⟨n, ?_, ?_, ?_⟩
      · rw [h1]; simp [arrivalsOf, hmt]
      · rw [h2]; simp [arrivalsOf, hmt]
      · simp [releaseCountOf, List.countP_cons] at h3 ⊢
        split <;> omega
    | runTask =>
      rw [runProv]
      rw [drainedSchedule] at hd
      cases hmc : st.microtasks with
      | nil =>
        have hstep : runTaskStep st = st := by simp [runTaskStep, hmc]
        rw [hstep] at hd ⊢
        obtain ⟨n, h1, h2, h3⟩ := ih st hs hf hq hd hgoodr
        refine ⟨n, ?_, ?_, ?_⟩
        · rw [h1]; simp [arrivalsOf, hmc]
        · rw [h2]; simp [arrivalsOf, hmc]
        · simp [releaseCountOf, List.countP_cons] at h3 ⊢
          omega
      | cons k mrest =>
        cases hca : st.connectionAllocated with
        | true =>
          have hstep : runTaskStep st =
              { st with microtasks := mrest, blockerWaiters := st.blockerWaiters ++ [k] } := by
            simp [runTaskStep, hmc, getConnectionStep, hs, hf, hca]
          rw [hstep] at hd ⊢
          obtain ⟨n, h1, h2, h3⟩ := ih
            { st with microtasks := mrest, blockerWaiters := st.blockerWaiters ++ [k] }
            hs hf (by intro hcon; rw [hca] at hcon; cases hcon) hd hgoodr
          refine ⟨n, ?_, ?_, ?_⟩
          · rw [h1]; simp [arrivalsOf, hmc]
          · rw [h2]; simp [arrivalsOf, hmc]
          · simp [releaseCountOf, List.countP_cons, hca] at h3 ⊢
            omega
        | false =>
          have hw : st.blockerWaiters = [] := hq hca
          have hstep : runTaskStep st =
              { st with microtasks := mrest, connectionAllocated := true, served := st.served ++ [k] } := by
            simp [runTaskStep, hmc, getConnectionStep, hs, hf, hca]
          rw [hstep] at hd ⊢
          obtain ⟨n, h1, h2, h3⟩ := ih
            { st with microtasks := mrest, connectionAllocated := true, served := st.served ++ [k] }
            hs hf (by intro hcon; cases hcon) hd hgoodr
          refine ⟨n + 1, ?_, ?_, ?_⟩
          · rw [h1]; simp [arrivalsOf, hw, hmc]
          · rw [h2]; simp [arrivalsOf, hw, hmc]
          · simp [releaseCountOf, List.countP_cons, hca] at h3 ⊢
            omega

/-! ## Claim theorems: providers and dialect detection -/

/-- C7 counterexample: the releaser only clears the allocated flag and
schedules the waiters' `getConnection` re-runs on the microtask queue;
a fourth caller whose `getConnection` call lands after `release()` but
before those re-runs execute finds the connection free and is handed it
ahead of callers 2 and 3, who arrived earlier and are still waiting —
so the calls are not satisfied in arrival order and the second hand-out
goes to the fourth arrival while the second arrival has received
nothing. -/
theorem c7_single_provider_fifo_counterexample :
    arrivalsOf [ProvEvent.arrive 1, .arrive 2, .arrive 3, .release none, .arrive 4,
      .runTask, .runTask] = [1, 2, 3, 4] ∧
    (runProv [ProvEvent.arrive 1, .arrive 2, .arrive 3, .release none, .arrive 4,
      .runTask, .runTask] ProvState.init).served = [1, 4] ∧
    4 ∈ (runProv [ProvEvent.arrive 1, .arrive 2, .arrive 3, .release none, .arrive 4,
      .runTask, .runTask] ProvState.init).served ∧
    2 ∉ (runProv [ProvEvent.arrive 1, .arrive 2, .arrive 3, .release none, .arrive 4,
      .runTask, .runTask] ProvState.init).served := by
  refine ⟨?_, ?_, ?_, ?_⟩ <;> decide

/-- C7 amended: on every event schedule in which no `getConnection`
call and no release lands between a release and the draining of the
re-runs it scheduled (a drained schedule), the callers handed the
connection are exactly a prefix of the callers in arrival order (FIFO:
no reordering, no skipping), the callers still pending — registered on
the blocker or scheduled in the microtask queue — are the remaining
arrivals in order, and the number of hand-outs never exceeds the number
of (non-fatal) releases plus one, so the Kth caller is not handed the
connection before the (K-1)th hand-out has been released.  Without
that scheduling condition FIFO fails, as the counterexample shows.
Because the statement holds for every event sequence, it holds at every
prefix of an execution. -/
theorem c7_single_provider_fifo_amended (evs : List ProvEvent)
    (hgood : ∀ err, ProvEvent.release (some err) ∈ evs → err.fatal = false)
    (hdrained : drainedSchedule evs ProvState.init = true) :
    (runProv evs ProvState.init).served.length ≤ releaseCountOf evs + 1 ∧
    (runProv evs ProvState.init).served =
      (arrivalsOf evs).take (runProv evs ProvState.init).served.length ∧
    (runProv evs ProvState.init).blockerWaiters ++
        (runProv evs ProvState.init).microtasks =
      (arrivalsOf evs).drop (runProv evs ProvState.init).served.length := by
  obtain ⟨n, h1, h2, h3⟩ := runProv_spec evs ProvState.init rfl rfl (fun _ => rfl)
    hdrained hgood
  simp only [show ProvState.init.served = [] from rfl,
    show ProvState.init.blockerWaiters = [] from rfl,
    show ProvState.init.microtasks = [] from rfl,
    List.nil_append, List.append_nil] at h1 h2
  have h3n : n ≤ releaseCountOf evs + 1 := by
    simp only [ProvState.init] at h3
    simpa using h3
  have hlen : (runProv evs ProvState.init).served.length =
      min n (arrivalsOf evs).length := by
    rw [h1]
    exact List.length_take n (arrivalsOf evs)
  rcases le_total n (arrivalsOf evs).length with hle | hle
  · have hmin : min n (arrivalsOf evs).length = n := Nat.min_eq_left hle
    rw [hlen, hmin]
    exact ⟨h3n, h1, h2⟩
  · have hmin : min n (arrivalsOf evs).length = (arrivalsOf evs).length :=
      Nat.min_eq_right hle
    rw [hlen, hmin]
    refine ⟨?_, ?_, ?_⟩
    · exact le_trans hle h3n
    · rw [h1, List.take_of_length_le hle, List.take_length]
    · rw [h2, List.drop_eq_nil_of_le hle, List.drop_eq_nil_of_le (le_refl _)]

/-- Witness for C7's amended theorem: three arrivals, a release whose
scheduled re-runs drain before anything else happens (serving caller 2
and re-queueing caller 3), then a second drained release serving caller
3 — strict arrival order. -/
theorem c7_single_provider_fifo_amended_witness :
    (runProv [ProvEvent.arrive 1, .arrive 2, .arrive 3, .release none, .runTask,
        .runTask, .release none, .runTask] ProvState.init).served.length ≤
      releaseCountOf [ProvEvent.arrive 1, .arrive 2, .arrive 3, .release none,
        .runTask, .runTask, .release none, .runTask] + 1 ∧
    (runProv [ProvEvent.arrive 1, .arrive 2, .arrive 3, .release none, .runTask,
        .runTask, .release none, .runTask] ProvState.init).served =
      (arrivalsOf [ProvEvent.arrive 1, .arrive 2, .arrive 3, .release none, .runTask,
          .runTask, .release none, .runTask]).take
        (runProv [ProvEvent.arrive 1, .arrive 2, .arrive 3, .release none, .runTask,
            .runTask, .release none, .runTask] ProvState.init).served.length ∧
    (runProv [ProvEvent.arrive 1, .arrive 2, .arrive 3, .release none, .runTask,
        .runTask, .release none, .runTask] ProvState.init).blockerWaiters ++
        (runProv [ProvEvent.arrive 1, .arrive 2, .arrive 3, .release none, .runTask,
            .runTask, .release none, .runTask] ProvState.init).microtasks =
      (arrivalsOf [ProvEvent.arrive 1, .arrive 2, .arrive 3, .release none, .runTask,
          .runTask, .release none, .runTask]).drop
        (runProv [ProvEvent.arrive 1, .arrive 2, .arrive 3, .release none, .runTask,
            .runTask, .release none, .runTask] ProvState.init).served.length :=
  c7_single_provider_fifo_amended _ (by intro err h; simp at h) (by decide)

/-- C8 counterexample: the version string `"10.5.8-MariaDB"` does not
match the MariaDB pattern (which requires the `-10.x.y-MariaDB`
suffix, as in `"5.5.5-10.5.8-MariaDB"`), so `detectDialect` reports it
unsupported instead of selecting the MariaDB10 dialect; and in the
single-connection branch the construction promise is rejected first
(the `reject` at provider.ts line 137) and the connection close is only
initiated afterwards, so the teardown does not complete before the
error is returned. -/
theorem c8_dialect_detection_counterexample :
    detectDialect (some "10.5.8-MariaDB") =
      .error (.unsupported "10.5.8-MariaDB") ∧
    createProviderSingle none (some "8.0.1") false none =
      [.settleReject (.unsupported "8.0.1"), .endStarted, .endCompleted,
        .settleReject (.unsupported "8.0.1")] := by
  constructor
  · rfl
  · rfl

/-- C8 amended: `"5.7.34"` selects the MySQL56-family dialect; a
version with the `-10.<minor>.<patch>-MariaDB` suffix (such as
`"5.5.5-10.5.8-MariaDB"`) selects the MariaDB10 dialect, while the bare
`"10.5.8-MariaDB"` is unsupported; `"8.0.1"` makes provider
construction fail with an unsupported-version error; in the pool
variant the pool is torn down before the error is returned, while in
the single-connection variant the error is returned immediately and
the connection close is initiated after it. -/
theorem c8_dialect_detection_amended :
    detectDialect (some "5.7.34") = .ok .mySQL56 ∧
    detectDialect (some "5.5.5-10.5.8-MariaDB") = .ok .mariaDB10 ∧
    detectDialect (some "10.5.8-MariaDB") =
      .error (.unsupported "10.5.8-MariaDB") ∧
    createProviderPool none (some "8.0.1") none =
      [.poolEndStarted, .poolEndCompleted, .settleReject (.unsupported "8.0.1")] ∧
    firstSettle (createProviderPool none (some "8.0.1") none) =
      some (.settleReject (.unsupported "8.0.1")) ∧
    createProviderSingle none (some "8.0.1") false none =
      [.settleReject (.unsupported "8.0.1"), .endStarted, .endCompleted,
        .settleReject (.unsupported "8.0.1")] ∧
    firstSettle (createProviderSingle none (some "8.0.1") false none) =
      some (.settleReject (.unsupported "8.0.1")) := by
  refine ⟨?_, ?_, ?_, ?_, ?_, ?_, ?_⟩ <;> rfl

end X2Node
